import Mathlib

/-!
Shallow embedding of the scene-graph core of `three-rs` (hub, node store,
object handle, tree walker, group/scene mutation protocol), translated from
`src/hub.rs`, `src/node.rs`, `src/object.rs` and `src/scene.rs`.

Modelling conventions:
* `f32` scalars are idealised as rationals (`ℚ`); the vector/quaternion
  algebra of the external `euler` crate is given by its standard formulas.
* `froggy::Pointer` / `froggy::WeakPointer` are modelled as natural-number
  slot indices into a `List (Option NodeInternal)`; a `none` slot is a
  destroyed node, so weak-pointer upgrade failure is a `none` lookup.
* Rust panics (`unreachable!`, `unimplemented!`, indexing a dead pointer)
  are modelled as `Option.none` results of the state-transition functions.
* The `error!` log invocations are modelled by emitting `Diag` values; the
  source has no `warn!` call in any of the modelled paths.
* Loops over linked sibling chains take explicit fuel; every theorem below
  supplies enough fuel for the finite graphs it speaks about.
-/

namespace Three

set_option maxHeartbeats 1600000

/-- Rational 3-vector, standing for `euler::Vec3` with `f32` idealised as `ℚ`. -/
structure Vec3 where
  x : ℚ
  y : ℚ
  z : ℚ
deriving DecidableEq, Repr

/-- Componentwise vector addition. -/
def Vec3.add (a b : Vec3) : Vec3 := ⟨a.x + b.x, a.y + b.y, a.z + b.z⟩

/-- Vector minus vector, used by `Base::look_at` for `eye - target`. -/
def Vec3.sub (a b : Vec3) : Vec3 := ⟨a.x - b.x, a.y - b.y, a.z - b.z⟩

/-- Scaling a vector by a scalar, as in `other.disp * self.scale`. -/
def Vec3.smul (s : ℚ) (a : Vec3) : Vec3 := ⟨s * a.x, s * a.y, s * a.z⟩

/-- Dot product, used by `Base::look_at` for `dir.dot(z)`. -/
def Vec3.dot (a b : Vec3) : ℚ := a.x * b.x + a.y * b.y + a.z * b.z

/-- Cross product, auxiliary for quaternion rotation. -/
def Vec3.cross (a b : Vec3) : Vec3 :=
  ⟨a.y * b.z - a.z * b.y, a.z * b.x - a.x * b.z, a.x * b.y - a.y * b.x⟩

/-- Quaternion, standing for `euler::Quat` (components `x`, `y`, `z`, scalar `w`). -/
structure Quat where
  x : ℚ
  y : ℚ
  z : ℚ
  w : ℚ
deriving DecidableEq, Repr

/-- Identity quaternion `Quat::identity()`. -/
def Quat.identity : Quat := ⟨0, 0, 0, 1⟩

/-- Hamilton product of quaternions, standing for `self.rot * other.rot`. -/
def Quat.mul (a b : Quat) : Quat :=
  ⟨a.w * b.x + a.x * b.w + a.y * b.z - a.z * b.y,
   a.w * b.y - a.x * b.z + a.y * b.w + a.z * b.x,
   a.w * b.z + a.x * b.y - a.y * b.x + a.z * b.w,
   a.w * b.w - a.x * b.x - a.y * b.y - a.z * b.z⟩

/-- Rotation of a vector by a (unit) quaternion, `q.rotate(v)`, by the
standard formula `v + 2 w (q̂ × v) + 2 (q̂ × (q̂ × v))`. -/
def Quat.rotate (q : Quat) (v : Vec3) : Vec3 :=
  let u : Vec3 := ⟨q.x, q.y, q.z⟩
  let c := u.cross v
  v.add (((Vec3.smul q.w c).add (u.cross c)).smul 2)

/-- Translated from `node.rs`: `TransformInternal { disp, rot, scale }`. -/
structure TransformInternal where
  disp : Vec3
  rot : Quat
  scale : ℚ
deriving DecidableEq, Repr

/-- Translated from `TransformInternal::one`: identity transform. -/
def TransformInternal.one : TransformInternal :=
  { disp := ⟨0, 0, 0⟩, rot := Quat.identity, scale := 1 }

/-- Translated from `TransformInternal::concat` in `node.rs`:
`scale = self.scale * other.scale`, `rot = self.rot * other.rot`,
`disp = self.disp + self.rot.rotate(other.disp * self.scale)`. -/
def TransformInternal.concat (s o : TransformInternal) : TransformInternal :=
  { scale := s.scale * o.scale
    rot := s.rot.mul o.rot
    disp := s.disp.add (s.rot.rotate (Vec3.smul s.scale o.disp)) }

/-- Slot index standing for `froggy::Pointer<NodeInternal>`. -/
abbrev Ptr := Nat

/-- Translated from `hub.rs` `enum SubNode`. Payload data irrelevant to the
hub logic (materials, skeletons, shadow maps, audio, light parameters) is
carried as opaque numeric identifiers; the hub only stores or replaces it.
The commented-out `UiText` variant of the source is omitted. -/
inductive SubNode where
  | empty : SubNode
  | group (first_child : Option Ptr) : SubNode
  | audio (data : Nat) : SubNode
  | visual (material : Nat) (skeleton : Option Nat) : SubNode
  | light (shadow : Option (Nat × Nat)) : SubNode
  | skeleton (data : Nat) : SubNode
deriving DecidableEq, Repr

/-- Translated from `node.rs` `struct NodeInternal`. -/
structure NodeInternal where
  visible : Bool
  world_visible : Bool
  transform : TransformInternal
  world_transform : TransformInternal
  sub_node : SubNode
  next_sibling : Option Ptr
deriving DecidableEq, Repr

/-- Translated from `impl From<SubNode> for NodeInternal`: a fresh node is
visible, not world-visible, with identity transforms and no sibling. -/
def NodeInternal.fromSub (sub : SubNode) : NodeInternal :=
  { visible := true
    world_visible := false
    transform := TransformInternal.one
    world_transform := TransformInternal.one
    sub_node := sub
    next_sibling := none }

/-- The node store, standing for `froggy::Storage<NodeInternal>`: slot `p`
holds `some node` while the node is alive and `none` once destroyed. -/
abbrev Store := List (Option NodeInternal)

/-- Lookup of a slot; `none` both for a destroyed node and for an index
outside the store (the latter never arises in the states considered). -/
def lookupNode (s : Store) (p : Ptr) : Option NodeInternal :=
  (s[p]?).getD none

/-- Overwrite a live slot with a new node value. -/
def setNode (s : Store) (p : Ptr) (n : NodeInternal) : Store :=
  s.set p (some n)

/-- Translated from `hub.rs` `enum Operation`. The audio and texel-range
variants, whose payloads drive external audio/texture objects, are omitted:
no modelled code path nor claim depends on them. `SetWeights` is kept since
the live `process_messages` has no arm for it (it falls to `unimplemented!`). -/
inductive Operation where
  | addChild (child : Ptr) : Operation
  | removeChild (child : Ptr) : Operation
  | setVisible (visible : Bool) : Operation
  | setTransform (pos : Option Vec3) (rot : Option Quat) (scale : Option ℚ) : Operation
  | setMaterial (material : Nat) : Operation
  | setSkeleton (skeleton : Nat) : Operation
  | setShadow (map : Nat) (proj : Nat) : Operation
  | setWeights (weights : Nat) : Operation
deriving DecidableEq, Repr

/-- A queued message: weak pointer to the target node plus the operation. -/
abbrev Message := Ptr × Operation

/-- Severity of a log invocation in the source. -/
inductive LogLevel where
  | warn : LogLevel
  | error : LogLevel
deriving DecidableEq, Repr

/-- The diagnostics the modelled code can emit, one per `error!` call site. -/
inductive Diag where
  | addChildOldParent : Diag
  | removeChildNotFound : Diag
deriving DecidableEq, Repr

/-- Log macro used at each call site in the source: `hub.rs` line 208 and
line 231 both invoke the `error!` macro, so every modelled diagnostic is
error-level; no modelled path invokes `warn!`. -/
def Diag.level : Diag → LogLevel
  | _ => LogLevel.error

/-- Translated from the sibling-chain walk of the `Operation::RemoveChild`
arm (`hub.rs` lines 227-241): starting at `cur`, find the node whose
`next_sibling` is the target and redirect it to `next`; if the chain ends,
log `error!("Unable to find child for removal")` and stop. Fuel exhaustion,
which would be an infinite loop in the source, yields `none`. -/
def removeWalk (s : Store) (target : Ptr) (next : Option Ptr) :
    Option Ptr → Nat → Option (Store × List Diag)
  | none, _ => some (s, [Diag.removeChildNotFound])
  | some _, 0 => none
  | some q, fuel + 1 =>
    match lookupNode s q with
    | none => none
    | some qn =>
      if qn.next_sibling = some target then
        some (setNode s q { qn with next_sibling := next }, [])
      else
        removeWalk s target next qn.next_sibling fuel

/-- Translated from the `match operation` dispatch of `Hub::process_messages`
(`hub.rs` lines 193-317), for an already-upgraded target `p`. A `none`
result models a panic (`unreachable!`, `unimplemented!`). -/
def applyOperation (s : Store) (p : Ptr) (op : Operation) (fuel : Nat) :
    Option (Store × List Diag) :=
  match op with
  | Operation.addChild child =>
    match lookupNode s p with
    | none => none
    | some pn =>
      match pn.sub_node with
      | SubNode.group first_child =>
        let s1 := setNode s p { pn with sub_node := SubNode.group (some child) }
        match lookupNode s1 child with
        | none => none
        | some cn =>
          let log := if cn.next_sibling.isSome then [Diag.addChildOldParent] else []
          some (setNode s1 child { cn with next_sibling := first_child }, log)
      | _ => none
  | Operation.removeChild child =>
    match lookupNode s child with
    | none => none
    | some cn =>
      match lookupNode s p with
      | none => none
      | some pn =>
        match pn.sub_node with
        | SubNode.group first_child =>
          if first_child = some child then
            some (setNode s p { pn with sub_node := SubNode.group cn.next_sibling }, [])
          else
            removeWalk s child cn.next_sibling first_child fuel
        | _ => none
  | Operation.setVisible visible =>
    match lookupNode s p with
    | none => none
    | some n => some (setNode s p { n with visible := visible }, [])
  | Operation.setTransform pos rot scale =>
    match lookupNode s p with
    | none => none
    | some n =>
      some (setNode s p
        { n with transform :=
          { disp := pos.getD n.transform.disp
            rot := rot.getD n.transform.rot
            scale := scale.getD n.transform.scale } }, [])
  | Operation.setMaterial material =>
    match lookupNode s p with
    | none => none
    | some n =>
      match n.sub_node with
      | SubNode.visual _ sk =>
        some (setNode s p { n with sub_node := SubNode.visual material sk }, [])
      | _ => some (s, [])
  | Operation.setSkeleton skeleton =>
    match lookupNode s p with
    | none => none
    | some n =>
      match n.sub_node with
      | SubNode.visual m _ =>
        some (setNode s p { n with sub_node := SubNode.visual m (some skeleton) }, [])
      | _ => some (s, [])
  | Operation.setShadow map proj =>
    match lookupNode s p with
    | none => none
    | some n =>
      match n.sub_node with
      | SubNode.light _ =>
        some (setNode s p { n with sub_node := SubNode.light (some (map, proj)) }, [])
      | _ => some (s, [])
  | Operation.setWeights _ => none

/-- Translated from the head of the drain loop of `Hub::process_messages`
(`hub.rs` lines 188-192): upgrade the weak pointer; on failure `continue`
with no mutation, otherwise dispatch the operation. -/
def processMessage (s : Store) (m : Message) (fuel : Nat) :
    Option (Store × List Diag) :=
  match lookupNode s m.1 with
  | none => some (s, [])
  | some _ => applyOperation s m.1 m.2 fuel

/-- Translated from the drain loop of `Hub::process_messages`: the queued
messages are applied in order; a panic anywhere aborts. The terminal
`sync_pending` call of the source belongs to the external `froggy` crate
and reclaims unreferenced slots only; it is not modelled. -/
def processMessages (s : Store) (msgs : List Message) (fuel : Nat) :
    Option (Store × List Diag) :=
  match msgs with
  | [] => some (s, [])
  | m :: rest =>
    match processMessage s m fuel with
    | none => none
    | some (s1, log1) =>
      match processMessages s1 rest fuel with
      | none => none
      | some (s2, log2) => some (s2, log1 ++ log2)

/-- Translated from the local `struct Item` of `Hub::update_graph`. -/
structure Item where
  parent : Option Ptr
  ptr : Ptr
deriving DecidableEq, Repr

/-- One visit of the `Hub::update_graph` loop (`hub.rs` lines 356-363):
write the visited node's `world_transform`, composing the parent's
already-updated world transform with the local transform, or copying the
local transform for a parentless root. Nothing else is written. -/
def updateStep (s : Store) (item : Item) : Store :=
  match item.parent with
  | some pp =>
    match lookupNode s pp, lookupNode s item.ptr with
    | some pn, some n =>
      setNode s item.ptr
        { n with world_transform := pn.world_transform.concat n.transform }
    | _, _ => s
  | none =>
    match lookupNode s item.ptr with
    | some n => setNode s item.ptr { n with world_transform := n.transform }
    | none => s

/-- Items pushed after a visit (`hub.rs` lines 365-387): the next-sibling
continuation (same parent) is pushed first, then the first-child descent
(with the visited node as parent), which therefore ends up on top. -/
def updatePushes (s : Store) (item : Item) : List Item :=
  let sibItems :=
    match lookupNode s item.ptr with
    | some n =>
      match n.next_sibling with
      | some q => [Item.mk item.parent q]
      | none => []
    | none => []
  let childItems :=
    match lookupNode s item.ptr with
    | some n =>
      match n.sub_node with
      | SubNode.group (some c) => [Item.mk (some item.ptr) c]
      | _ => []
    | none => []
  childItems ++ sibItems

/-- Translated from the `while let Some(item) = stack.pop()` loop of
`Hub::update_graph` (`hub.rs` lines 355-388). The head of the list is the
top of the stack. Fuel exhaustion returns the store as-is (never reached
by the theorems below). -/
def updateGraphLoop (s : Store) (stack : List Item) : Nat → Store
  | 0 => s
  | fuel + 1 =>
    match stack with
    | [] => s
    | item :: rest =>
      updateGraphLoop (updateStep s item) (updatePushes (updateStep s item) item ++ rest) fuel

/-- Translated from `Hub::update_graph`: initialise the stack with the
scene's first child (as a parentless root) and run the traversal loop. -/
def updateGraph (s : Store) (sceneFirstChild : Option Ptr) (fuel : Nat) : Store :=
  match sceneFirstChild with
  | some p => updateGraphLoop s [Item.mk none p] fuel
  | none => s

/-- Translated from `TreeWalker::descend` (`hub.rs` lines 420-453). The
walker stack is a list of node pointers (each `WalkedNode` of the source
holds only a pointer), head = top. When the stack is non-empty its top is
the parent context: the descended node's `world_visible` and
`world_transform` are recomputed from it; the node is then pushed, and
descent continues into its first child only while the node is locally
visible and is a group with a child. -/
def descendLoop (s : Store) (stack : List Ptr) (p : Ptr) : Nat → Store × List Ptr
  | 0 => (s, stack)
  | fuel + 1 =>
    let s1 :=
      match stack with
      | top :: _ =>
        match lookupNode s top, lookupNode s p with
        | some tn, some n =>
          setNode s p
            { n with
              world_visible := tn.world_visible && n.visible
              world_transform := tn.world_transform.concat n.transform }
        | _, _ => s
      | [] => s
    let stack1 := p :: stack
    match lookupNode s1 p with
    | some n =>
      if n.visible then
        match n.sub_node with
        | SubNode.group (some c) => descendLoop s1 stack1 c fuel
        | _ => (s1, stack1)
      else (s1, stack1)
    | none => (s1, stack1)

/-- Translated from `<TreeWalker as Iterator>::next` (`hub.rs` lines
459-471): pop the top frame; if it has a next sibling, descend into the
sibling first; yield the popped node only when its `world_visible` is true,
otherwise continue with the next frame. Returns the updated store, the
remaining stack, and the yielded pointer (if any). -/
def nextLoop (s : Store) (stack : List Ptr) : Nat → Store × List Ptr × Option Ptr
  | 0 => (s, stack, none)
  | fuel + 1 =>
    match stack with
    | [] => (s, [], none)
    | top :: rest =>
      let step :=
        match (lookupNode s top).bind NodeInternal.next_sibling with
        | some sib => descendLoop s rest sib fuel
        | none => (s, rest)
      match lookupNode step.1 top with
      | some n =>
        if n.world_visible then (step.1, step.2, some top)
        else nextLoop step.1 step.2 fuel
      | none => nextLoop step.1 step.2 fuel

/-- Repeatedly calling `next` on the walker until it returns `None`,
collecting every yielded pointer in order. -/
def collectLoop (s : Store) (stack : List Ptr) : Nat → Store × List Ptr
  | 0 => (s, [])
  | fuel + 1 =>
    match nextLoop s stack (fuel + 1) with
    | (s1, st1, some p) =>
      let rest := collectLoop s1 st1 fuel
      (rest.1, p :: rest.2)
    | (s1, _, none) => (s1, [])

/-- Translated from `Hub::walk` / `Hub::walk_impl`: construct the walker by
descending from `base` with an empty stack, then iterate it to exhaustion.
Returns the final store and the list of yielded node pointers. -/
def walkAll (s : Store) (base : Ptr) (fuel : Nat) : Store × List Ptr :=
  let start := descendLoop s [] base fuel
  collectLoop start.1 start.2 fuel

/-- Translated from the up-vector selection of `Base::look_at`
(`object.rs` lines 134-144): an explicit up vector is normalized; with no
up vector the world z axis is chosen unless the gaze direction is nearly
parallel to it (`|dir.dot(z)| >= 0.99`), in which case the y axis is the
fallback. The `normalize`, `Quat::look_at` and `Quat::inverse` functions
belong to the external `euler` crate and are taken as parameters. -/
def lookAtUpVector (normalize : Vec3 → Vec3) (dir : Vec3) (up : Option Vec3) : Vec3 :=
  let z : Vec3 := ⟨0, 0, 1⟩
  match up with
  | some v => normalize v
  | none => if |dir.dot z| < 99 / 100 then z else ⟨0, 1, 0⟩

/-- Continuation of `Base::look_at`: the operation it hands to
`Base::send`. The gaze direction is `normalize (eye - target)`, the up
vector follows `lookAtUpVector`, and the produced operation is
`SetTransform(Some(eye), Some(q), Some(1.0))` via
`Base::set_transform(eye, q, 1.0)` (`object.rs` lines 147-149). -/
def lookAtOperation (normalize : Vec3 → Vec3) (quatLookAt : Vec3 → Vec3 → Quat)
    (quatInverse : Quat → Quat) (eye target : Vec3) (up : Option Vec3) : Operation :=
  let dir := normalize (eye.sub target)
  let upv := lookAtUpVector normalize dir up
  let q := quatInverse (quatLookAt dir upv)
  Operation.setTransform (some eye) (some q) (some 1)

/-- Scale component of a `SetTransform` operation, `none` for other kinds. -/
def Operation.scaleComponent : Operation → Option ℚ
  | Operation.setTransform _ _ scale => scale
  | _ => none

/-- Live sibling chain of pointers starting at a head pointer: `some l`
when the chain reaches `None` within fuel through live nodes only. -/
def sibPtrs (s : Store) : Option Ptr → Nat → Option (List Ptr)
  | none, _ => some []
  | some _, 0 => none
  | some p, fuel + 1 =>
    match lookupNode s p with
    | none => none
    | some n => (sibPtrs s n.next_sibling fuel).map (p :: ·)

/-- Direct-children chain of a group node, in traversal (head-first) order. -/
def childChain (s : Store) (p : Ptr) (fuel : Nat) : Option (List Ptr) :=
  match lookupNode s p with
  | some n =>
    match n.sub_node with
    | SubNode.group fc => sibPtrs s fc fuel
    | _ => none
  | none => none

/-- Result of the `Operation::SetTransform(pos, rot, scale)` arm on a node:
each component given as `Some` is written, each `None` component keeps its
prior value. -/
def mergedTransform (n : NodeInternal) (pos : Option Vec3) (rot : Option Quat)
    (scale : Option ℚ) : NodeInternal :=
  { n with transform :=
    { disp := pos.getD n.transform.disp
      rot := rot.getD n.transform.rot
      scale := scale.getD n.transform.scale } }

/-- A root node pointing at slot 1, with its stale `world_visible` left at
`true` (as after an earlier traversal) and a visible child: `update_graph`
never writes `world_visible`, so the child keeps its stale `false`. -/
def visStaleStore : Store :=
  [some { visible := true, world_visible := true, transform := TransformInternal.one,
          world_transform := TransformInternal.one,
          sub_node := SubNode.group (some 1), next_sibling := none },
   some (NodeInternal.fromSub SubNode.empty)]

/-- Chain parent → child → grandchild with `parent.visible = true` (and its
`world_visible` already `true`), `child.visible = false`,
`grandchild.visible = true`; world visibility of child and grandchild start
at the spawn default `false`. -/
def chainStore : Store :=
  [some { visible := true, world_visible := true, transform := TransformInternal.one,
          world_transform := TransformInternal.one,
          sub_node := SubNode.group (some 1), next_sibling := none },
   some { NodeInternal.fromSub (SubNode.group (some 2)) with visible := false },
   some (NodeInternal.fromSub SubNode.empty)]

/-- Walker scenario: visible base group 0 (`world_visible` already `true`)
whose children are the invisible group 1 (itself with two visible children
3 and 4) and the visible node 2. -/
def pruneStore : Store :=
  [some { visible := true, world_visible := true, transform := TransformInternal.one,
          world_transform := TransformInternal.one,
          sub_node := SubNode.group (some 1), next_sibling := none },
   some { NodeInternal.fromSub (SubNode.group (some 3)) with
          visible := false, next_sibling := some 2 },
   some (NodeInternal.fromSub SubNode.empty),
   some { NodeInternal.fromSub SubNode.empty with next_sibling := some 4 },
   some (NodeInternal.fromSub SubNode.empty)]

/-- Four-node graph with symbolic transforms: root group `A` (transform
`ta`) with children `B` (transform `tb`, itself a group with child `D` of
transform `td`) and `C` (transform `tc`). -/
def quadStore (ta tb tc td : TransformInternal) : Store :=
  [some { NodeInternal.fromSub (SubNode.group (some 1)) with transform := ta },
   some { NodeInternal.fromSub (SubNode.group (some 3)) with
          transform := tb, next_sibling := some 2 },
   some { NodeInternal.fromSub SubNode.empty with transform := tc },
   some { NodeInternal.fromSub SubNode.empty with transform := td }]

/-- Node `A` of `quadStore` after its `update_graph` visit: as a parentless
root its world transform is a copy of its local transform. -/
def quadNodeA (ta : TransformInternal) : NodeInternal :=
  { NodeInternal.fromSub (SubNode.group (some 1)) with
    transform := ta, world_transform := ta }

/-- Node `B` of `quadStore` after its `update_graph` visit. -/
def quadNodeB (ta tb : TransformInternal) : NodeInternal :=
  { NodeInternal.fromSub (SubNode.group (some 3)) with
    transform := tb, next_sibling := some 2, world_transform := ta.concat tb }

/-- Node `C` of `quadStore` after its `update_graph` visit. -/
def quadNodeC (ta tc : TransformInternal) : NodeInternal :=
  { NodeInternal.fromSub SubNode.empty with
    transform := tc, world_transform := ta.concat tc }

/-- Node `D` of `quadStore` after its `update_graph` visit. -/
def quadNodeD (ta tb td : TransformInternal) : NodeInternal :=
  { NodeInternal.fromSub SubNode.empty with
    transform := td, world_transform := (ta.concat tb).concat td }

/-- The example of spec property P1: parent at the origin with scale 2 and
identity rotation, child at local position (1,0,0) with scale 1. -/
def scaleExampleStore : Store :=
  quadStore
    { disp := ⟨0, 0, 0⟩, rot := Quat.identity, scale := 2 }
    { disp := ⟨1, 0, 0⟩, rot := Quat.identity, scale := 1 }
    TransformInternal.one TransformInternal.one

/-- A group (slot 0) and two freshly spawned children (slots 1 and 2). -/
def orderStore : Store :=
  [some (NodeInternal.fromSub (SubNode.group none)),
   some (NodeInternal.fromSub SubNode.empty),
   some (NodeInternal.fromSub SubNode.empty)]

/-- A group (slot 0) and a child (slot 1) that still carries a dangling
`next_sibling` link to slot 2 from some previous parent. -/
def conflictStore : Store :=
  [some (NodeInternal.fromSub (SubNode.group none)),
   some { NodeInternal.fromSub SubNode.empty with next_sibling := some 2 },
   some (NodeInternal.fromSub SubNode.empty)]

/-- A group (slot 0) with child chain 1 → 2 → 3, plus a live node 4 that is
not in the chain. -/
def spliceStore : Store :=
  [some (NodeInternal.fromSub (SubNode.group (some 1))),
   some { NodeInternal.fromSub SubNode.empty with next_sibling := some 2 },
   some { NodeInternal.fromSub SubNode.empty with next_sibling := some 3 },
   some (NodeInternal.fromSub SubNode.empty),
   some (NodeInternal.fromSub SubNode.empty)]

/-- A store holding one live node with the `Empty` payload. -/
def emptyNodeStore : Store :=
  [some (NodeInternal.fromSub SubNode.empty)]

/-- Two freshly spawned nodes: a group (slot 0) with first child slot 1.
Both have the spawn defaults `visible = true`, `world_visible = false`. -/
def freshWalkStore : Store :=
  [some (NodeInternal.fromSub (SubNode.group (some 1))),
   some (NodeInternal.fromSub SubNode.empty)]

/-- Base group (slot 0) with one child (slot 1), with every flag and
transform symbolic. -/
def basePairStore (vb wb vc wc : Bool) (tb wtb tc wtc : TransformInternal) : Store :=
  [some { visible := vb, world_visible := wb, transform := tb, world_transform := wtb,
          sub_node := SubNode.group (some 1), next_sibling := none },
   some { visible := vc, world_visible := wc, transform := tc, world_transform := wtc,
          sub_node := SubNode.empty, next_sibling := none }]

theorem lookupNode_lt_length {s : Store} {p : Ptr} {n : NodeInternal}
    (h : lookupNode s p = some n) : p < s.length := by
  by_contra hlt
  push_neg at hlt
  unfold lookupNode at h
  rw [List.getElem?_eq_none hlt] at h
  simp at h

theorem lookupNode_set_self {s : Store} {p : Ptr} {n : NodeInternal}
    (m : NodeInternal) (h : lookupNode s p = some n) :
    lookupNode (setNode s p m) p = some m := by
  unfold lookupNode setNode
  rw [List.getElem?_set_eq_of_lt _ (lookupNode_lt_length h)]
  rfl

theorem lookupNode_set_ne {s : Store} {p q : Ptr} (m : NodeInternal) (hq : q ≠ p) :
    lookupNode (setNode s p m) q = lookupNode s q := by
  unfold lookupNode setNode
  rw [List.getElem?_set_ne (fun he => hq he.symm)]

theorem lookupNode_set_world_visible {s : Store} {q : Ptr} {n m : NodeInternal}
    (h : lookupNode s q = some n) (hm : m.world_visible = n.world_visible) (p : Ptr) :
    (lookupNode (setNode s q m) p).map NodeInternal.world_visible
      = (lookupNode s p).map NodeInternal.world_visible := by
  by_cases hpq : p = q
  · subst hpq
    rw [lookupNode_set_self m h, h]
    simp [hm]
  · rw [lookupNode_set_ne m hpq]

theorem updateStep_world_visible (s : Store) (item : Item) (p : Ptr) :
    (lookupNode (updateStep s item) p).map NodeInternal.world_visible
      = (lookupNode s p).map NodeInternal.world_visible := by
  rcases item with ⟨par, q⟩
  unfold updateStep
  cases par with
  | none =>
    cases hn : lookupNode s q with
    | none => simp [hn]
    | some n =>
      simp only [hn]
      refine lookupNode_set_world_visible hn ?_ p
      rfl
  | some pp =>
    cases hpn : lookupNode s pp with
    | none => simp [hpn]
    | some pn =>
      cases hn : lookupNode s q with
      | none => simp [hpn, hn]
      | some n =>
        simp only [hpn, hn]
        refine lookupNode_set_world_visible hn ?_ p
        rfl

theorem updateGraphLoop_world_visible :
    ∀ (fuel : Nat) (s : Store) (stack : List Item) (p : Ptr),
    (lookupNode (updateGraphLoop s stack fuel) p).map NodeInternal.world_visible
      = (lookupNode s p).map NodeInternal.world_visible
  | 0, _, _, _ => rfl
  | fuel + 1, s, stack, p => by
    cases stack with
    | nil => rfl
    | cons item rest =>
      have hstep : updateGraphLoop s (item :: rest) (fuel + 1)
          = updateGraphLoop (updateStep s item)
              (updatePushes (updateStep s item) item ++ rest) fuel := rfl
      rw [hstep, updateGraphLoop_world_visible fuel _ _ p, updateStep_world_visible]

/-- C1 counterexample: run `Hub::update_graph` over `visStaleStore`, where
the root (slot 0) has `world_visible = true` and its child (slot 1) has
`visible = true` but a stale `world_visible = false`. After the pass the
child's `world_visible` is still `false`, not `parent.world_visible AND
child.visible = true`: `update_graph` does not write `world_visible` at
all. -/
theorem updateGraph_visibility_cex :
    (lookupNode (updateGraph visStaleStore (some 0) 10) 0).map NodeInternal.world_visible
      = some true ∧
    (lookupNode (updateGraph visStaleStore (some 0) 10) 1).map NodeInternal.visible
      = some true ∧
    (lookupNode (updateGraph visStaleStore (some 0) 10) 1).map NodeInternal.world_visible
      = some false ∧
    (some false : Option Bool) ≠ some (true && true) := by
  refine ⟨by decide, by decide, by decide, by decide⟩

/-- C1 (amended): `Hub::update_graph` leaves every node's `world_visible`
exactly as it was — only `world_transform` is recomputed. The propagation
`world_visible = parent.world_visible AND local.visible` is performed by
`TreeWalker::descend` instead; in the chain parent → child → grandchild of
`chainStore` (parent visible with `world_visible = true`, child invisible,
grandchild visible, descendant flags starting at the spawn default
`false`), a full tree walk after `update_graph` leaves both
`child.world_visible` and `grandchild.world_visible` equal to `false`. -/
theorem updateGraph_visibility_corrected :
    (∀ (s : Store) (root : Option Ptr) (fuel : Nat) (p : Ptr),
      (lookupNode (updateGraph s root fuel) p).map NodeInternal.world_visible
        = (lookupNode s p).map NodeInternal.world_visible) ∧
    ((walkAll (updateGraph chainStore (some 0) 20) 0 20).1.map
        (fun o => o.map NodeInternal.world_visible)
      = [some true, some false, some false]) := by
  constructor
  · intro s root fuel p
    cases root with
    | none => rfl
    | some r => exact updateGraphLoop_world_visible fuel s [Item.mk none r] p
  · decide

/-- C2 counterexample: in `pruneStore` the invisible node (slot 1, local
`visible = false`) has two visible children (slots 3 and 4), yet a full
walk from the base (slot 0) yields the invisible node zero times, not
exactly once: `TreeWalker::next` emits a popped frame only when its
computed `world_visible` is true. -/
theorem walker_invisible_yield_cex :
    (lookupNode pruneStore 1).map NodeInternal.visible = some false ∧
    (lookupNode pruneStore 3).map NodeInternal.visible = some true ∧
    (lookupNode pruneStore 4).map NodeInternal.visible = some true ∧
    (walkAll pruneStore 0 30).2.count 1 ≠ 1 := by
  refine ⟨by decide, by decide, by decide, by decide⟩

/-- C2 (amended): the walker pushes and consumes the invisible node but
never emits it (its computed `world_visible` is false); it does not yield
either of the invisible node's children, since descent stops at the
invisible node; its visible sibling is still visited, exactly once. The
full walk of `pruneStore` from the base yields precisely the visible
sibling (slot 2) and then the base (slot 0). -/
theorem walker_prune_semantics :
    (walkAll pruneStore 0 30).2 = [2, 0] ∧
    (walkAll pruneStore 0 30).2.count 1 = 0 ∧
    (walkAll pruneStore 0 30).2.count 3 = 0 ∧
    (walkAll pruneStore 0 30).2.count 4 = 0 ∧
    (walkAll pruneStore 0 30).2.count 2 = 1 ∧
    ((walkAll pruneStore 0 30).1.map (fun o => o.map NodeInternal.world_visible))
      = [some true, some false, some true, some false, some false] := by
  refine ⟨by decide, by decide, by decide, by decide, by decide, by decide⟩

theorem updateGraph_quad_eval (ta tb tc td : TransformInternal) :
    updateGraph (quadStore ta tb tc td) (some 0) 10
      = setNode (setNode (setNode (setNode (quadStore ta tb tc td)
          0 (quadNodeA ta)) 1 (quadNodeB ta tb)) 3 (quadNodeD ta tb td))
          2 (quadNodeC ta tc) := by
  have h1 : updateGraph (quadStore ta tb tc td) (some 0) 10
      = updateGraphLoop (setNode (quadStore ta tb tc td) 0 (quadNodeA ta))
          [Item.mk (some 0) 1] 9 := rfl
  have h2 : updateGraphLoop (setNode (quadStore ta tb tc td) 0 (quadNodeA ta))
        [Item.mk (some 0) 1] 9
      = updateGraphLoop (setNode (setNode (quadStore ta tb tc td) 0 (quadNodeA ta))
          1 (quadNodeB ta tb)) [Item.mk (some 1) 3, Item.mk (some 0) 2] 8 := rfl
  have h3 : updateGraphLoop (setNode (setNode (quadStore ta tb tc td) 0 (quadNodeA ta))
          1 (quadNodeB ta tb)) [Item.mk (some 1) 3, Item.mk (some 0) 2] 8
      = updateGraphLoop (setNode (setNode (setNode (quadStore ta tb tc td)
          0 (quadNodeA ta)) 1 (quadNodeB ta tb)) 3 (quadNodeD ta tb td))
          [Item.mk (some 0) 2] 7 := rfl
  have h4 : updateGraphLoop (setNode (setNode (setNode (quadStore ta tb tc td)
          0 (quadNodeA ta)) 1 (quadNodeB ta tb)) 3 (quadNodeD ta tb td))
          [Item.mk (some 0) 2] 7
      = updateGraphLoop (setNode (setNode (setNode (setNode (quadStore ta tb tc td)
          0 (quadNodeA ta)) 1 (quadNodeB ta tb)) 3 (quadNodeD ta tb td))
          2 (quadNodeC ta tc)) [] 6 := rfl
  have h5 : updateGraphLoop (setNode (setNode (setNode (setNode (quadStore ta tb tc td)
          0 (quadNodeA ta)) 1 (quadNodeB ta tb)) 3 (quadNodeD ta tb td))
          2 (quadNodeC ta tc)) [] 6
      = setNode (setNode (setNode (setNode (quadStore ta tb tc td)
          0 (quadNodeA ta)) 1 (quadNodeB ta tb)) 3 (quadNodeD ta tb td))
          2 (quadNodeC ta tc) := rfl
  rw [h1, h2, h3, h4, h5]

/-- C3 (confirmed): after `Hub::update_graph` over `quadStore` (root `A`
with children `B`, `C` and grandchild `D` under `B`, transforms symbolic),
every node whose parent was processed in the pass carries
`world_transform = parent.world_transform.concat(its local transform)`,
where `concat` multiplies scales, multiplies rotations, and sets the
displacement to `parent.disp + parent.rot.rotate(child.disp * parent.scale)`;
on the P1 example store (parent scale 2 at the origin, child at (1,0,0))
the child's world position comes out as (2,0,0). -/
theorem updateGraph_concat_composition (ta tb tc td : TransformInternal) :
    (lookupNode (updateGraph (quadStore ta tb tc td) (some 0) 10) 0).map
        NodeInternal.world_transform = some ta ∧
    (lookupNode (updateGraph (quadStore ta tb tc td) (some 0) 10) 1).map
        NodeInternal.world_transform = some (ta.concat tb) ∧
    (lookupNode (updateGraph (quadStore ta tb tc td) (some 0) 10) 2).map
        NodeInternal.world_transform = some (ta.concat tc) ∧
    (lookupNode (updateGraph (quadStore ta tb tc td) (some 0) 10) 3).map
        NodeInternal.world_transform = some ((ta.concat tb).concat td) ∧
    (ta.concat tb).scale = ta.scale * tb.scale ∧
    (ta.concat tb).rot = ta.rot.mul tb.rot ∧
    (ta.concat tb).disp = ta.disp.add (ta.rot.rotate (Vec3.smul ta.scale tb.disp)) ∧
    (lookupNode (updateGraph scaleExampleStore (some 0) 10) 1).map
        (fun n => n.world_transform.disp) = some ⟨2, 0, 0⟩ := by
  rw [updateGraph_quad_eval ta tb tc td]
  refine ⟨rfl, rfl, rfl, rfl, rfl, rfl, rfl, ?_⟩
  show (lookupNode (updateGraph (quadStore
      { disp := ⟨0, 0, 0⟩, rot := Quat.identity, scale := 2 }
      { disp := ⟨1, 0, 0⟩, rot := Quat.identity, scale := 1 }
      TransformInternal.one TransformInternal.one) (some 0) 10) 1).map
      (fun n => n.world_transform.disp) = some ⟨2, 0, 0⟩
  rw [updateGraph_quad_eval]
  simp [quadStore, quadNodeA, quadNodeB, quadNodeC, quadNodeD, setNode, lookupNode,
    NodeInternal.fromSub, TransformInternal.one, TransformInternal.concat,
    Quat.identity, Quat.rotate, Quat.mul, Vec3.smul, Vec3.add, Vec3.cross]

/-- C4 (confirmed): the `SetTransform(pos, rot, scale)` arm applied to a
live node writes exactly the `Some` components and keeps each `None`
component at its prior value: the processed store holds the node with the
merged transform, all other slots are untouched, an all-`None` message
leaves the node identical, and a position-only message changes only the
displacement. -/
theorem setTransform_partial_update (s : Store) (p : Ptr) (n : NodeInternal)
    (pos : Option Vec3) (rot : Option Quat) (scale : Option ℚ) (fuel : Nat)
    (h : lookupNode s p = some n) :
    processMessage s (p, Operation.setTransform pos rot scale) fuel
      = some (setNode s p (mergedTransform n pos rot scale), []) ∧
    lookupNode (setNode s p (mergedTransform n pos rot scale)) p
      = some (mergedTransform n pos rot scale) ∧
    (∀ q, q ≠ p →
      lookupNode (setNode s p (mergedTransform n pos rot scale)) q = lookupNode s q) ∧
    mergedTransform n none none none = n ∧
    (∀ v, (mergedTransform n (some v) none none).transform.disp = v ∧
      (mergedTransform n (some v) none none).transform.rot = n.transform.rot ∧
      (mergedTransform n (some v) none none).transform.scale = n.transform.scale ∧
      (mergedTransform n (some v) none none).world_transform = n.world_transform ∧
      (mergedTransform n (some v) none none).visible = n.visible ∧
      (mergedTransform n (some v) none none).world_visible = n.world_visible ∧
      (mergedTransform n (some v) none none).next_sibling = n.next_sibling) := by
  refine ⟨?_, lookupNode_set_self _ h, fun q hq => lookupNode_set_ne _ hq, rfl,
    fun v => ⟨rfl, rfl, rfl, rfl, rfl, rfl, rfl⟩⟩
  simp only [processMessage, applyOperation, h, mergedTransform]

/-- Witness for C4 at a concrete input: a position-only update of the
single node of `emptyNodeStore`. -/
theorem setTransform_partial_update_witness :
    processMessage emptyNodeStore (0, Operation.setTransform (some ⟨1, 2, 3⟩) none none) 3
      = some (setNode emptyNodeStore 0
          (mergedTransform (NodeInternal.fromSub SubNode.empty) (some ⟨1, 2, 3⟩) none none),
          []) :=
  (setTransform_partial_update emptyNodeStore 0 (NodeInternal.fromSub SubNode.empty)
    (some ⟨1, 2, 3⟩) none none 3 rfl).1

/-- C7 (confirmed): a queued message whose weak reference no longer
resolves is skipped by the drain loop without panicking and without
touching the store; the rest of the queue is processed as if the message
were absent. -/
theorem dead_target_skipped (s : Store) (p : Ptr) (op : Operation) (fuel : Nat)
    (rest : List Message) (h : lookupNode s p = none) :
    processMessage s (p, op) fuel = some (s, []) ∧
    processMessages s ((p, op) :: rest) fuel = processMessages s rest fuel := by
  have h1 : processMessage s (p, op) fuel = some (s, []) := by
    simp only [processMessage, h]
  refine ⟨h1, ?_⟩
  simp only [processMessages, h1]
  cases processMessages s rest fuel with
  | none => rfl
  | some r => rfl

/-- Witness for C7 at a concrete input: a `SetVisible` message aimed at
the destroyed slot of the one-slot store `[none]`. -/
theorem dead_target_skipped_witness :
    processMessage [none] (0, Operation.setVisible false) 5 = some ([none], []) ∧
    processMessages [none] [(0, Operation.setVisible false)] 5 = processMessages [none] [] 5 :=
  dead_target_skipped [none] 0 (Operation.setVisible false) 5 [] rfl

/-- C8 counterexample: `SetMaterial` addressed to the `Empty`-payload node
of `emptyNodeStore` does not panic — the arm is an `if let` with no else,
so the operation is silently ignored and the store is unchanged, contrary
to the claim that every payload-mismatched operation is treated as
unreachable/fatal. -/
theorem setMaterial_mismatch_cex :
    processMessage emptyNodeStore (0, Operation.setMaterial 7) 5 = some (emptyNodeStore, []) ∧
    processMessage emptyNodeStore (0, Operation.setMaterial 7) 5 ≠ none := by
  have h1 : processMessage emptyNodeStore (0, Operation.setMaterial 7) 5
      = some (emptyNodeStore, []) := rfl
  exact ⟨h1, by rw [h1]; exact fun hc => Option.noConfusion hc⟩

/-- C8 (amended): only the structural operations are fatal on a payload
mismatch — `AddChild` and `RemoveChild` addressed to a non-`Group` node
hit `unreachable!` (modelled as `none`) — while the payload setters
`SetMaterial` and `SetSkeleton` on a non-`Visual` node and `SetShadow` on
a non-`Light` node are silently ignored, leaving the store unchanged. -/
theorem payload_mismatch_dispatch (s : Store) (p : Ptr) (n : NodeInternal) (fuel : Nat)
    (h : lookupNode s p = some n) :
    ((∀ fc, n.sub_node ≠ SubNode.group fc) →
      (∀ c, applyOperation s p (Operation.addChild c) fuel = none) ∧
      (∀ c, applyOperation s p (Operation.removeChild c) fuel = none)) ∧
    ((∀ m sk, n.sub_node ≠ SubNode.visual m sk) →
      (∀ m, applyOperation s p (Operation.setMaterial m) fuel = some (s, [])) ∧
      (∀ k, applyOperation s p (Operation.setSkeleton k) fuel = some (s, []))) ∧
    ((∀ sh, n.sub_node ≠ SubNode.light sh) →
      ∀ m pr, applyOperation s p (Operation.setShadow m pr) fuel = some (s, [])) := by
  refine ⟨fun hng => ⟨fun c => ?_, fun c => ?_⟩,
    fun hnv => ⟨fun m => ?_, fun k => ?_⟩, fun hnl m pr => ?_⟩
  · cases hsub : n.sub_node with
    | group fc => exact absurd hsub (hng fc)
    | empty => simp only [applyOperation, h, hsub]
    | audio d => simp only [applyOperation, h, hsub]
    | visual m sk => simp only [applyOperation, h, hsub]
    | light sh => simp only [applyOperation, h, hsub]
    | skeleton d => simp only [applyOperation, h, hsub]
  · cases hc : lookupNode s c with
    | none => simp only [applyOperation, hc]
    | some cn =>
      cases hsub : n.sub_node with
      | group fc => exact absurd hsub (hng fc)
      | empty => simp only [applyOperation, h, hc, hsub]
      | audio d => simp only [applyOperation, h, hc, hsub]
      | visual m sk => simp only [applyOperation, h, hc, hsub]
      | light sh => simp only [applyOperation, h, hc, hsub]
      | skeleton d => simp only [applyOperation, h, hc, hsub]
  · cases hsub : n.sub_node with
    | visual mm sk => exact absurd hsub (hnv mm sk)
    | empty => simp only [applyOperation, h, hsub]
    | group fc => simp only [applyOperation, h, hsub]
    | audio d => simp only [applyOperation, h, hsub]
    | light sh => simp only [applyOperation, h, hsub]
    | skeleton d => simp only [applyOperation, h, hsub]
  · cases hsub : n.sub_node with
    | visual mm sk => exact absurd hsub (hnv mm sk)
    | empty => simp only [applyOperation, h, hsub]
    | group fc => simp only [applyOperation, h, hsub]
    | audio d => simp only [applyOperation, h, hsub]
    | light sh => simp only [applyOperation, h, hsub]
    | skeleton d => simp only [applyOperation, h, hsub]
  · cases hsub : n.sub_node with
    | light sh => exact absurd hsub (hnl sh)
    | empty => simp only [applyOperation, h, hsub]
    | group fc => simp only [applyOperation, h, hsub]
    | audio d => simp only [applyOperation, h, hsub]
    | visual mm sk => simp only [applyOperation, h, hsub]
    | skeleton d => simp only [applyOperation, h, hsub]

/-- Witness for C8 at concrete inputs: on the `Empty`-payload node,
`AddChild` panics while `SetMaterial` is ignored. -/
theorem payload_mismatch_dispatch_witness :
    applyOperation emptyNodeStore 0 (Operation.addChild 0) 5 = none ∧
    applyOperation emptyNodeStore 0 (Operation.setMaterial 7) 5 = some (emptyNodeStore, []) :=
  ⟨((payload_mismatch_dispatch emptyNodeStore 0 (NodeInternal.fromSub SubNode.empty) 5 rfl).1
      (fun fc hx => by simp [NodeInternal.fromSub] at hx)).1 0,
   ((payload_mismatch_dispatch emptyNodeStore 0 (NodeInternal.fromSub SubNode.empty) 5 rfl).2.1
      (fun m sk hx => by simp [NodeInternal.fromSub] at hx)).1 7⟩

theorem sibPtrs_some_mem {s : Store} {q : Ptr} {l : List Ptr} :
    ∀ {fuel : Nat}, sibPtrs s (some q) fuel = some l → q ∈ l := by
  intro fuel
  cases fuel with
  | zero => intro hs; simp [sibPtrs] at hs
  | succ fuel =>
    intro hs
    cases hq : lookupNode s q with
    | none => rw [sibPtrs, hq] at hs; simp at hs
    | some n =>
      rw [sibPtrs, hq] at hs
      rcases Option.map_eq_some'.mp hs with ⟨l1, _, hl1⟩
      rw [← hl1]
      exact List.mem_cons_self q l1

theorem removeWalk_not_found (s : Store) (c : Ptr) (nd : Option Ptr) :
    ∀ (fuel : Nat) (head : Option Ptr) (l : List Ptr),
    sibPtrs s head fuel = some l → c ∉ l →
    removeWalk s c nd head fuel = some (s, [Diag.removeChildNotFound])
  | fuel, none, _, _, _ => by cases fuel <;> rfl
  | 0, some _, l, hs, _ => by simp [sibPtrs] at hs
  | fuel + 1, some q, l, hs, hmem => by
    cases hq : lookupNode s q with
    | none => rw [sibPtrs, hq] at hs; simp at hs
    | some n =>
      rw [sibPtrs, hq] at hs
      rcases Option.map_eq_some'.mp hs with ⟨l1, hl1, hcons⟩
      rw [← hcons] at hmem
      have hmem1 : c ∉ l1 := fun hx => hmem (List.mem_cons_of_mem q hx)
      have hnx : ¬ n.next_sibling = some c := by
        intro hx
        rw [hx] at hl1
        exact hmem1 (sibPtrs_some_mem hl1)
      simp only [removeWalk, hq]
      rw [if_neg hnx]
      exact removeWalk_not_found s c nd fuel n.next_sibling l1 hl1 hmem1

/-- C6 (confirmed): `RemoveChild(c)` on a group whose sibling chain does
not contain `c` emits the error-level "Unable to find child for removal"
diagnostic, does not panic, and returns the store unchanged (every
`first_child` and `next_sibling` as before); on `spliceStore` (chain
1 → 2 → 3), removing the middle child 2 splices the chain to 1 → 3 and
removing the head child 1 redirects `first_child` to 2 → 3, each without
any diagnostic. -/
theorem removeChild_not_found_reported (s : Store) (p c : Ptr) (fc : Option Ptr)
    (pn cn : NodeInternal) (fuel : Nat) (l : List Ptr)
    (hp : lookupNode s p = some pn) (hsub : pn.sub_node = SubNode.group fc)
    (hc : lookupNode s c = some cn)
    (hl : sibPtrs s fc fuel = some l) (hmem : c ∉ l) :
    applyOperation s p (Operation.removeChild c) fuel
      = some (s, [Diag.removeChildNotFound]) ∧
    Diag.level Diag.removeChildNotFound = LogLevel.error ∧
    (processMessage spliceStore (0, Operation.removeChild 2) 10).map
        (fun r => (childChain r.1 0 10, r.2)) = some (some [1, 3], []) ∧
    (processMessage spliceStore (0, Operation.removeChild 1) 10).map
        (fun r => (childChain r.1 0 10, r.2)) = some (some [2, 3], []) := by
  refine ⟨?_, rfl, by decide, by decide⟩
  have hne : ¬ fc = some c := by
    intro hx
    rw [hx] at hl
    exact hmem (sibPtrs_some_mem hl)
  simp only [applyOperation, hc, hp, hsub, if_neg hne]
  exact removeWalk_not_found s c cn.next_sibling fuel fc l hl hmem

/-- Witness for C6 at a concrete input: removing the never-added node 4
from the group of `spliceStore` reports the error and leaves the store
untouched. -/
theorem removeChild_not_found_reported_witness :
    applyOperation spliceStore 0 (Operation.removeChild 4) 10
      = some (spliceStore, [Diag.removeChildNotFound]) :=
  (removeChild_not_found_reported spliceStore 0 4 (some 1)
    (NodeInternal.fromSub (SubNode.group (some 1))) (NodeInternal.fromSub SubNode.empty)
    10 [1, 2, 3] rfl rfl rfl (by decide) (by decide)).1

/-- C5 counterexample: adding the child of `conflictStore` that still has
a dangling `next_sibling` emits the "still having old parent" diagnostic
via the `error!` macro — an error-level diagnostic, not a warning-level
one as the claim states. -/
theorem addChild_warn_level_cex :
    (processMessages conflictStore [(0, Operation.addChild 1)] 10).map (fun r => r.2)
      = some [Diag.addChildOldParent] ∧
    Diag.level Diag.addChildOldParent ≠ LogLevel.warn := by
  exact ⟨by decide, by decide⟩

/-- C5 (amended): `AddChild(c)` on a group makes `c` the new `first_child`
and points `c.next_sibling` at the previous `first_child`; if `c` already
had a `next_sibling`, an error-level (not warning-level) diagnostic is
logged and the old link is overwritten rather than the operation being
rejected; adding children 1 then 2 to the group of `orderStore` yields the
direct-children traversal order [2, 1]. -/
theorem addChild_head_insert (s : Store) (p c : Ptr) (fc : Option Ptr)
    (pn cn : NodeInternal) (fuel : Nat)
    (hp : lookupNode s p = some pn) (hsub : pn.sub_node = SubNode.group fc)
    (hc : lookupNode s c = some cn) (hcp : c ≠ p) :
    applyOperation s p (Operation.addChild c) fuel
      = some (setNode (setNode s p { pn with sub_node := SubNode.group (some c) })
            c { cn with next_sibling := fc },
          if cn.next_sibling.isSome then [Diag.addChildOldParent] else []) ∧
    lookupNode (setNode (setNode s p { pn with sub_node := SubNode.group (some c) })
        c { cn with next_sibling := fc }) p
      = some { pn with sub_node := SubNode.group (some c) } ∧
    lookupNode (setNode (setNode s p { pn with sub_node := SubNode.group (some c) })
        c { cn with next_sibling := fc }) c = some { cn with next_sibling := fc } ∧
    Diag.level Diag.addChildOldParent = LogLevel.error ∧
    (processMessages orderStore [(0, Operation.addChild 1), (0, Operation.addChild 2)] 10).map
        (fun r => childChain r.1 0 10) = some (some [2, 1]) := by
  refine ⟨?_, ?_, ?_, rfl, by decide⟩
  · simp only [applyOperation, hp, hsub, lookupNode_set_ne _ hcp, hc]
  · rw [lookupNode_set_ne _ (Ne.symm hcp)]
    exact lookupNode_set_self _ hp
  · have hcc : lookupNode (setNode s p { pn with sub_node := SubNode.group (some c) }) c
        = some cn := by
      rw [lookupNode_set_ne _ hcp]
      exact hc
    exact lookupNode_set_self _ hcc

/-- Witness for C5 at a concrete input: adding child 1 to the group of
`orderStore`. -/
theorem addChild_head_insert_witness :
    applyOperation orderStore 0 (Operation.addChild 1) 10
      = some (setNode (setNode orderStore 0
            { NodeInternal.fromSub (SubNode.group none) with sub_node := SubNode.group (some 1) })
            1 { NodeInternal.fromSub SubNode.empty with next_sibling := none }, []) :=
  (addChild_head_insert orderStore 0 1 none
    (NodeInternal.fromSub (SubNode.group none)) (NodeInternal.fromSub SubNode.empty)
    10 rfl rfl rfl (by decide)).1

/-- C9 counterexample: for a representative instantiation of the external
`euler` functions, the operation produced by `Base::look_at` carries scale
component `Some 1`, not `None`: `look_at` calls `set_transform(eye, q, 1.0)`,
so the node's scale is reset to 1 rather than left untouched. -/
theorem look_at_scale_cex :
    Operation.scaleComponent (lookAtOperation id (fun _ _ => Quat.identity) id
      ⟨0, 0, 0⟩ ⟨1, 0, 0⟩ none) = some 1 ∧
    Operation.scaleComponent (lookAtOperation id (fun _ _ => Quat.identity) id
      ⟨0, 0, 0⟩ ⟨1, 0, 0⟩ none) ≠ none := by
  have h1 : Operation.scaleComponent (lookAtOperation id (fun _ _ => Quat.identity) id
      ⟨0, 0, 0⟩ ⟨1, 0, 0⟩ none) = some 1 := rfl
  exact ⟨h1, by rw [h1]; exact fun hc => Option.noConfusion hc⟩

/-- C9 (amended): for every eye and target, `Base::look_at` computes the
orientation from the gaze direction, resolving the up vector by
`lookAtUpVector` (explicit up normalized; otherwise world-z unless the
gaze is nearly parallel to it, then the y fallback), and issues the single
combined message `SetTransform(Some(eye), Some(q), Some(1.0))`; processing
it therefore writes position `eye`, orientation `q`, and scale 1 —
overwriting the node's previous scale rather than leaving it untouched. -/
theorem look_at_message (normalize : Vec3 → Vec3) (quatLookAt : Vec3 → Vec3 → Quat)
    (quatInverse : Quat → Quat) (eye target : Vec3) (up : Option Vec3)
    (s : Store) (p : Ptr) (n : NodeInternal) (fuel : Nat)
    (h : lookupNode s p = some n) :
    lookAtOperation normalize quatLookAt quatInverse eye target up
      = Operation.setTransform (some eye)
          (some (quatInverse (quatLookAt (normalize (eye.sub target))
            (lookAtUpVector normalize (normalize (eye.sub target)) up)))) (some 1) ∧
    (∀ v, lookAtUpVector normalize (normalize (eye.sub target)) (some v) = normalize v) ∧
    processMessage s (p, lookAtOperation normalize quatLookAt quatInverse eye target up) fuel
      = some (setNode s p
          { n with transform :=
            { disp := eye
              rot := quatInverse (quatLookAt (normalize (eye.sub target))
                (lookAtUpVector normalize (normalize (eye.sub target)) up))
              scale := 1 } }, []) := by
  refine ⟨rfl, fun v => rfl, ?_⟩
  simp only [lookAtOperation, processMessage, applyOperation, h]
  rfl

/-- Witness for C9 at a concrete input: processing the `look_at` message
on the single `Empty` node resets its transform to position (0,0,0),
identity orientation, scale 1. -/
theorem look_at_message_witness :
    processMessage emptyNodeStore
        (0, lookAtOperation id (fun _ _ => Quat.identity) id ⟨0, 0, 0⟩ ⟨1, 0, 0⟩ none) 5
      = some (setNode emptyNodeStore 0
          { NodeInternal.fromSub SubNode.empty with transform :=
            { disp := ⟨0, 0, 0⟩, rot := Quat.identity, scale := 1 } }, []) :=
  (look_at_message id (fun _ _ => Quat.identity) id ⟨0, 0, 0⟩ ⟨1, 0, 0⟩ none
    emptyNodeStore 0 (NodeInternal.fromSub SubNode.empty) 5 rfl).2.2

/-- C10 (confirmed): a tree walk started at the base group of
`basePairStore` (all flags and transforms symbolic) never recomputes or
modifies the base node — after iterating the walker to exhaustion the base
node is bit-for-bit its initial value — and the base is yielded exactly
when its pre-existing `world_visible` flag is true; consequently a walk
over the freshly spawned nodes of `freshWalkStore` (spawn default
`world_visible = false`, `visible = true`) yields nothing at all. -/
theorem walker_base_not_recomputed (vb wb vc wc : Bool) (tb wtb tc wtc : TransformInternal) :
    lookupNode (walkAll (basePairStore vb wb vc wc tb wtb tc wtc) 0 6).1 0
      = some { visible := vb, world_visible := wb, transform := tb, world_transform := wtb,
               sub_node := SubNode.group (some 1), next_sibling := none } ∧
    (walkAll (basePairStore vb wb vc wc tb wtb tc wtc) 0 6).2.contains 0 = wb ∧
    (walkAll freshWalkStore 0 6).2 = [] ∧
    (lookupNode freshWalkStore 0).map NodeInternal.visible = some true ∧
    (lookupNode freshWalkStore 0).map NodeInternal.world_visible = some false := by
  refine ⟨?_, ?_, by decide, by decide, by decide⟩
  · cases vb <;> cases wb <;> cases vc <;> cases wc <;> rfl
  · cases vb <;> cases wb <;> cases vc <;> cases wc <;> rfl

end Three
